import Mathlib

/-!
Verification development for the CIS105 RB-vs-defense analysis project.

The Python sources embedded here:
* `compare_rb_vs_defenses.py` — defense tier ranking (`load_defense_rankings`),
  opponent normalization (`normalize_opponent_abbrev`) and per-player matchup
  aggregation (`analyze_rb_vs_defenses`);
* `starting_rbs_gamelog.py` — game-log row parsing (`fetch_player_gamelog`);
* `RB_gamelog.py` — roster extraction (`fetch_team_roster`).

Machine integers are modelled as `Int`/`Nat` (Python integers are unbounded),
fallible parsing as `Option`/`Except`, and pandas cells that may hold NaN or a
non-string value as an explicit `Cell` sum type.
-/

namespace RBProj

/-! ## Python string primitives

The Python string methods used by the sources (`replace`, `lower`, `upper`,
`strip`, `split`) are embedded as structurally recursive functions on the
character list of a `String`, so that every definition evaluates inside the
kernel. -/

/-- Python `s.strip()`: drop whitespace from both ends. -/
def trimChars (cs : List Char) : List Char :=
  (((cs.dropWhile (fun c => c.isWhitespace)).reverse.dropWhile
      (fun c => c.isWhitespace)).reverse)

/-- Python `s.lower()` (ASCII letters). -/
def lowerChars (cs : List Char) : List Char :=
  cs.map Char.toLower

/-- Python `s.upper()` (ASCII letters). -/
def upperChars (cs : List Char) : List Char :=
  cs.map Char.toUpper

/-- Python `s.replace('vs', '')`: remove every leftmost non-overlapping
occurrence of the two-character pattern `vs`. -/
def removeVs : List Char → List Char
  | 'v' :: 's' :: rest => removeVs rest
  | c :: rest => c :: removeVs rest
  | [] => []

/-- Helper for Python `s.split()`: accumulate the current (reversed) token
while scanning. -/
def tokensAux (cur : List Char) : List Char → List String
  | [] => if cur.isEmpty then [] else [String.mk cur.reverse]
  | c :: rest =>
    if c.isWhitespace then
      if cur.isEmpty then tokensAux [] rest
      else String.mk cur.reverse :: tokensAux [] rest
    else tokensAux (c :: cur) rest

/-! ## Cells: a pandas cell is either a Python `str` or some non-string value
(NaN, None, a number, ...).  `normalize_opponent_abbrev` only distinguishes
strings from everything else via `isinstance(opp_string, str)`. -/

/-- A value read from a DataFrame column: a Python string, or any non-string
value (NaN for a missing cell, None, a float, ...). -/
inductive Cell where
  | str (s : String)
  | nonStr
deriving DecidableEq, Repr

/-! ## `normalize_opponent_abbrev` (compare_rb_vs_defenses.py, lines 102-114)

```python
def normalize_opponent_abbrev(opp_string):
    if not opp_string or not isinstance(opp_string, str):
        return None
    opp = opp_string.replace('@', '').replace('vs', '').lower().strip()
    if len(opp) > 3:
        return None
    return opp
```

`str.replace` removes every (leftmost, non-overlapping) occurrence of the
pattern, matching `String.replace`.  For a string argument, `not opp_string`
is the emptiness test; every non-string argument fails `isinstance` (a falsy
non-string already fails the first test), so both are `Cell.nonStr → none`. -/

/-- Embedding of `normalize_opponent_abbrev`. `none` is Python's `None`
(the Unresolved outcome). -/
def normalize_opponent_abbrev : Cell → Option String
  | Cell.nonStr => none
  | Cell.str s =>
    if s = "" then none
    else
      let opp :=
        trimChars (lowerChars (removeVs (s.data.filter (fun c => c ≠ '@'))))
      if opp.length > 3 then none else some (String.mk opp)

/-- Modelled from the spec's words, for comparison with the code: strip one
*leading* "@" or "vs" marker, lower-case, trim, and abstain when the residual
exceeds 3 characters.  (The code instead removes every occurrence of the
markers anywhere in the string.) -/
def canonicalize_opponent_specWords : Cell → Option String
  | Cell.nonStr => none
  | Cell.str s =>
    if s = "" then none
    else
      let rest :=
        match s.data with
        | '@' :: r => r
        | 'v' :: 's' :: r => r
        | cs => cs
      let opp := trimChars (lowerChars rest)
      if opp.length > 3 then none else some (String.mk opp)

/-! ## Defense tier ranking: `load_defense_rankings` (lines 61-92)

```python
df_def = df_def.sort_values('Rushing Yards (Yds)')
df_def['team_abbrev'] = df_def['Team'].map(TEAM_NAME_TO_ABBREV)
top16_defenses = df_def.head(16)['team_abbrev'].tolist()
bottom16_defenses = df_def.tail(16)['team_abbrev'].tolist()
```

`sort_values` with its default `kind='quicksort'` promises an ascending
rearrangement of the rows but not stability, so the sort is embedded as the
relation admitting every ascending rearrangement.  `Series.map` on a dict
yields NaN for keys missing from the dict (modelled as `none`), and
`head`/`tail` keep the first/last 16 rows. -/

/-- One row of `defense_stats.csv` after the integer coercion of the
`Rushing Yards (Yds)` column. -/
structure DefRow where
  team : String
  rushing_yards_allowed : Int
deriving DecidableEq, Repr

/-- `TEAM_NAME_TO_ABBREV` from compare_rb_vs_defenses.py (lines 25-58). -/
def TEAM_NAME_TO_ABBREV : List (String × String) :=
  [("New York Giants", "nyg"), ("Cincinnati Bengals", "cin"),
   ("Buffalo Bills", "buf"), ("Miami Dolphins", "mia"),
   ("Chicago Bears", "chi"), ("Washington Commanders", "wsh"),
   ("Atlanta Falcons", "atl"), ("Tennessee Titans", "ten"),
   ("Minnesota Vikings", "min"), ("New York Jets", "nyj"),
   ("Carolina Panthers", "car"), ("Dallas Cowboys", "dal"),
   ("New Orleans Saints", "no"), ("Baltimore Ravens", "bal"),
   ("Philadelphia Eagles", "phi"), ("Arizona Cardinals", "ari"),
   ("Los Angeles Chargers", "lac"), ("San Francisco 49ers", "sf"),
   ("Pittsburgh Steelers", "pit"), ("Las Vegas Raiders", "lv"),
   ("Los Angeles Rams", "lar"), ("Cleveland Browns", "cle"),
   ("Detroit Lions", "det"), ("Kansas City Chiefs", "kc"),
   ("Tampa Bay Buccaneers", "tb"), ("Indianapolis Colts", "ind"),
   ("Green Bay Packers", "gb"), ("New England Patriots", "ne"),
   ("Houston Texans", "hou"), ("Seattle Seahawks", "sea"),
   ("Denver Broncos", "den"), ("Jacksonville Jaguars", "jax")]

/-- `df_def['Team'].map(TEAM_NAME_TO_ABBREV)` for one team name: the dict
lookup, `none` (pandas NaN) when the name is not a key. -/
def teamAbbrev (name : String) : Option String :=
  TEAM_NAME_TO_ABBREV.lookup name

/-- The rows are in ascending order of `rushing_yards_allowed`. -/
def sortedByYards (l : List DefRow) : Prop :=
  l.Pairwise (fun a b => a.rushing_yards_allowed ≤ b.rushing_yards_allowed)

instance decSortedByYards (l : List DefRow) : Decidable (sortedByYards l) := by
  unfold sortedByYards
  infer_instance

/-- `df.sort_values('Rushing Yards (Yds)')` with the default
`kind='quicksort'`: the output is some ascending rearrangement of the input
rows.  numpy's quicksort (introsort) gives no stability guarantee, so the
embedding is the relation admitting every ascending permutation. -/
def sort_values (inp out : List DefRow) : Prop :=
  out.Perm inp ∧ sortedByYards out

/-- `df_def.head(16)['team_abbrev'].tolist()`: abbreviations (NaN = `none`
for unmapped names) of the first 16 sorted rows. -/
def top16_defenses (sorted : List DefRow) : List (Option String) :=
  (sorted.take 16).map (fun r => teamAbbrev r.team)

/-- `df_def.tail(16)['team_abbrev'].tolist()`: abbreviations of the last 16
sorted rows. -/
def bottom16_defenses (sorted : List DefRow) : List (Option String) :=
  (sorted.drop (sorted.length - 16)).map (fun r => teamAbbrev r.team)

/-! ## Matchup aggregation: `analyze_rb_vs_defenses` (lines 117-189)

Per player: apply `normalize_opponent_abbrev` to the opponent column, drop
rows where it is NaN, keep the games whose abbreviation is in the tier list,
and sum the stat columns with `Series.sum` (default `skipna=True`: NaN
entries do not contribute). -/

/-- One game row of `starting_rbs_gamelog.csv` as read back by
`analyze_rb_vs_defenses` (only the fields the analysis touches). -/
structure PlayerGame where
  opponent : Cell
  rushing_yards : Option Int
  rushing_attempts : Option Int
deriving DecidableEq, Repr

/-- `Series.sum()` with the default `skipna=True`: NaN (`none`) entries are
skipped, an all-NaN or empty series sums to 0. -/
def seriesSum (xs : List (Option Int)) : Int :=
  xs.foldl (fun acc x => match x with | some v => acc + v | none => acc) 0

/-- The games of one player kept against one tier list: rows whose normalized
opponent abbreviation is not NaN (`notna` filter) and is in the tier
(`isin`). -/
def games_vs (games : List PlayerGame) (tier : List String) : List PlayerGame :=
  games.filter (fun g =>
    match normalize_opponent_abbrev g.opponent with
    | some a => tier.contains a
    | none => false)

/-- `games_vs_top['rushing_yards'].sum()` for one player and one tier. -/
def rushing_yards_vs (games : List PlayerGame) (tier : List String) : Int :=
  seriesSum ((games_vs games tier).map (fun g => g.rushing_yards))

/-! ## Python numeric coercion

`int(s)` strips surrounding whitespace, accepts an optional sign followed by
decimal digits, and raises `ValueError` otherwise.  `float(s)` likewise; here
only the plain decimal form (optional sign, digits with at most one dot, at
least one digit) is modelled — no claim exercises exponents or `inf`/`nan`
literals.  `s.isdigit()` is true for a nonempty all-digit string. -/

/-- Value of a nonempty list of decimal digit characters. -/
def digitsToNat (ds : List Char) : Nat :=
  ds.foldl (fun n c => 10 * n + (c.toNat - ('0').toNat)) 0

/-- Embedding of Python `int(s)`: `some` the value, or `none` when the call
raises `ValueError`. -/
def pyInt? (s : String) : Option Int :=
  let cs := trimChars s.data
  let (sign, digits) : Int × List Char :=
    match cs with
    | '+' :: rest => (1, rest)
    | '-' :: rest => (-1, rest)
    | _ => (1, cs)
  if digits ≠ [] ∧ digits.all (fun c => c.isDigit) then
    some (sign * (digitsToNat digits : Int))
  else none

/-- Embedding of whether Python `float(s)` succeeds on a plain decimal
literal. -/
def pyFloatOk (s : String) : Bool :=
  let cs :=
    match trimChars s.data with
    | c :: rest => if c = '+' ∨ c = '-' then rest else c :: rest
    | [] => []
  !cs.isEmpty && cs.count '.' ≤ 1 &&
    cs.all (fun c => c.isDigit || c = '.') && cs.any (fun c => c.isDigit)

/-- Embedding of Python `s.isdigit()` (ASCII digits). -/
def pyIsdigit (s : String) : Bool :=
  !s.isEmpty && s.toList.all (fun c => c.isDigit)

/-! ## Game-log row parsing: `fetch_player_gamelog`
(starting_rbs_gamelog.py, lines 73-116)

```python
for row in rows[2:]:
    cells = row.find_all('td')
    if len(cells) < 8:
        continue
    ...
    if len(cell_texts) > 6:
        try:
            game_data['rushing_attempts'] = int(cell_texts[3]) if cell_texts[3] else None
            game_data['rushing_yards']   = int(cell_texts[4]) if cell_texts[4] else None
            game_data['rushing_avg']     = float(cell_texts[5]) if cell_texts[5] else None
            game_data['rushing_td']      = int(cell_texts[6]) if cell_texts[6] else None
            game_data['rushing_lng']     = int(cell_texts[7]) if cell_texts[7] and cell_texts[7].isdigit() else None
        except (ValueError, IndexError):
            ...
    if len(cell_texts) > 13:
        try:
            game_data['receiving_receptions'] = int(cell_texts[8]) if cell_texts[8] else None
            game_data['receiving_targets']    = int(cell_texts[9]) if cell_texts[9] else None
            game_data['receiving_yards']      = int(cell_texts[10]) if cell_texts[10] else None
        except (ValueError, IndexError):
            ...
    games.append(game_data)
```

The assignments of one `try` block run sequentially: a `ValueError` on one
cell leaves that field and every later field of the same block unset, while
the fields assigned before the failure keep their values.  An empty cell
assigns `None` without raising.  Dict keys never set and keys set to `None`
both surface as NaN in the resulting DataFrame, so both are `none` here. -/

/-- `int(cell) if cell else None` inside a `try` block: `Except.error` is a
raised `ValueError`, `Except.ok none` the empty-cell abstain. -/
def cellInt (s : String) : Except Unit (Option Int) :=
  if s = "" then Except.ok none
  else match pyInt? s with
    | some n => Except.ok (some n)
    | none => Except.error ()

/-- `float(cell) if cell else None` inside a `try` block.  The parsed float
is recorded as its accepted literal (no claim inspects the numeric value, and
floats have no shallow embedding). -/
def cellFloat (s : String) : Except Unit (Option String) :=
  if s = "" then Except.ok none
  else if pyFloatOk s then Except.ok (some s) else Except.error ()

/-- `int(c7) if c7 and c7.isdigit() else None`: cannot raise thanks to the
`isdigit` guard. -/
def lngCell (s : String) : Option Int :=
  if s ≠ "" ∧ pyIsdigit s then some (digitsToNat s.toList : Int) else none

/-- The five rushing fields of one game row (columns 3-7: CAR, YDS, AVG,
TD, LNG). -/
structure RushStats where
  attempts : Option Int
  yards : Option Int
  avg : Option String
  td : Option Int
  lng : Option Int
deriving DecidableEq, Repr

/-- The three receiving fields of one game row (columns 8-10: REC, TGTS,
YDS). -/
structure RecvStats where
  receptions : Option Int
  targets : Option Int
  yards : Option Int
deriving DecidableEq, Repr

/-- The rushing `try` block: sequential assignments, aborted by the first
`ValueError`; fields assigned before the failure keep their values. -/
def parseRushingBlock (c3 c4 c5 c6 c7 : String) : RushStats :=
  match cellInt c3 with
  | Except.error _ => ⟨none, none, none, none, none⟩
  | Except.ok a =>
    match cellInt c4 with
    | Except.error _ => ⟨a, none, none, none, none⟩
    | Except.ok y =>
      match cellFloat c5 with
      | Except.error _ => ⟨a, y, none, none, none⟩
      | Except.ok v =>
        match cellInt c6 with
        | Except.error _ => ⟨a, y, v, none, none⟩
        | Except.ok t => ⟨a, y, v, t, lngCell c7⟩

/-- The receiving `try` block, same abort semantics. -/
def parseRecvBlock (c8 c9 c10 : String) : RecvStats :=
  match cellInt c8 with
  | Except.error _ => ⟨none, none, none⟩
  | Except.ok r =>
    match cellInt c9 with
    | Except.error _ => ⟨r, none, none⟩
    | Except.ok t =>
      match cellInt c10 with
      | Except.error _ => ⟨r, t, none⟩
      | Except.ok y => ⟨r, t, y⟩

/-- One emitted game entry (the per-player constants `player_id`,
`player_name`, `team` are carried by the caller and omitted). -/
structure GameRecord where
  date : String
  opponent : String
  result : String
  rush : RushStats
  recv : RecvStats
deriving DecidableEq, Repr

/-- Parsing of one data row: rows with fewer than 8 cells are skipped
(`none`); otherwise a record is always emitted.  The `len > 6` guard before
the rushing block is implied by the ≥ 8 check; the receiving block only runs
with more than 13 cells. -/
def parseGameRow (cells : List String) : Option GameRecord :=
  if cells.length < 8 then none
  else
    let c := fun i => cells.getD i ""
    some
      { date := c 0, opponent := c 1, result := c 2
        rush := parseRushingBlock (c 3) (c 4) (c 5) (c 6) (c 7)
        recv :=
          if cells.length > 13 then parseRecvBlock (c 8) (c 9) (c 10)
          else ⟨none, none, none⟩ }

/-- The table loop of `fetch_player_gamelog`: skip the two header rows, then
one `Option` record per remaining row. -/
def fetch_player_gamelog (rows : List (List String)) : List GameRecord :=
  (rows.drop 2).filterMap parseGameRow

/-! ## Roster extraction: `fetch_team_roster` (RB_gamelog.py, lines 59-130)

```python
position_text = ''
parent_tr = a.find_parent('tr')
if parent_tr:
    tds = parent_tr.find_all('td')
    for td in tds:
        text = td.get_text(separator=' ', strip=True)
        if text:
            if re.search(r'\bRB\b', text, flags=re.IGNORECASE):
                position_text = text
                break
            tokens = text.split()
            if tokens and len(tokens[0]) <= 3:
                position_text = tokens[0]
...
if 'RB' in position_text.upper():
    results.append(...); seen_ids.add(player_id)
```

A cell whose text matches `RB` as a whole word wins immediately with its full
text; otherwise each cell whose first token is at most 3 characters
*overwrites* the fallback, so the last such cell's token survives (the code
comment says "keep the last short token as fallback"). -/

/-- Python's `\w` word character: alphanumeric or underscore (ASCII). -/
def isWordChar (c : Char) : Bool :=
  c.isAlphanum || c = '_'

/-- Scan of a character list for an occurrence of `RB` (case-insensitive)
with non-word characters (or the string ends) on both sides, tracking the
previous character. -/
def rbWordScan : Option Char → List Char → Bool
  | prev, a :: b :: rest =>
    ((a = 'R' ∨ a = 'r') && (b = 'B' ∨ b = 'b') &&
      (match prev with | some p => !isWordChar p | none => true) &&
      (match rest with | c :: _ => !isWordChar c | [] => true)) ||
    rbWordScan (some a) (b :: rest)
  | _, _ => false

/-- Embedding of `re.search(r'\bRB\b', text, flags=re.IGNORECASE)`. -/
def containsRBWord (text : String) : Bool :=
  rbWordScan none text.toList

/-- Python `text.split()`: split on whitespace runs, dropping empty pieces. -/
def pySplit (s : String) : List String :=
  tokensAux [] s.data

/-- The per-cell fallback candidate of the roster loop: the first token of a
nonempty cell, when that token has at most 3 characters. -/
def shortTok (t : String) : Option String :=
  if t = "" then none
  else match pySplit t with
    | tok :: _ => if tok.length ≤ 3 then some tok else none
    | [] => none

/-- The `for td in tds` loop accumulating `position_text` (accumulator
`acc`): an RB whole-word match breaks with the cell's full text, otherwise a
short first token overwrites the accumulator. -/
def positionLoop (acc : String) : List String → String
  | [] => acc
  | t :: rest =>
    if t = "" then positionLoop acc rest
    else if containsRBWord t then t
    else match shortTok t with
      | some tok => positionLoop tok rest
      | none => positionLoop acc rest

/-- Position text resolved from the texts of the parent row's cells
(`position_text` starts as the empty string). -/
def positionFromRow (tds : List String) : String :=
  positionLoop "" tds

/-- One candidate player-profile link, with its player id as extracted by
`PLAYER_ID_RE`, its display name, and the texts of its parent row's cells. -/
structure Link where
  playerId : String
  name : String
  tds : List String
deriving DecidableEq, Repr

/-- One row appended to `results`. -/
structure RosterEntry where
  team : String
  player_name : String
  player_id : String
deriving DecidableEq, Repr

/-- Embedding of Python `'RB' in s` (substring test on the already
upper-cased position text). -/
def hasRBSub : List Char → Bool
  | a :: b :: rest => (a = 'R' && b = 'B') || hasRBSub (b :: rest)
  | _ => false

/-- `'RB' in position_text.upper()`: does the resolved position contain the
substring `RB` case-insensitively. -/
def rbQualifies (l : Link) : Bool :=
  hasRBSub (upperChars (positionFromRow l.tds).data)

/-- The link loop of `fetch_team_roster`: skip empty names, skip ids already
in `seen_ids`, and append (recording the id as seen) exactly when the
position qualifies. -/
def rosterLoop (team : String) (seen : List String) :
    List Link → List RosterEntry
  | [] => []
  | l :: rest =>
    if l.name = "" then rosterLoop team seen rest
    else if l.playerId ∈ seen then rosterLoop team seen rest
    else if rbQualifies l then
      ⟨team, l.name, l.playerId⟩ :: rosterLoop team (l.playerId :: seen) rest
    else rosterLoop team seen rest

/-- Embedding of `fetch_team_roster` over the candidate links of one page
(`seen_ids` starts empty). -/
def fetch_team_roster (team : String) (links : List Link) : List RosterEntry :=
  rosterLoop team [] links

/-! ## Auxiliary notions and concrete inputs used by the theorems below -/

/-- Stability of a rearrangement: any two distinct rows with equal
`rushing_yards_allowed` that occur in this order in the input occur in the
same order in the output. -/
def keepsTieOrder (inp out : List DefRow) : Prop :=
  ∀ x y : DefRow, x ≠ y →
    x.rushing_yards_allowed = y.rushing_yards_allowed →
    List.Sublist [x, y] inp → List.Sublist [x, y] out

/-- 32 defense rows: the real 32 team names with pairwise-distinct
`rushing_yards_allowed` values 80, 90, ..., 390 (already ascending). -/
def demoRows32 : List DefRow :=
  List.zipWith (fun n i => ⟨n, 80 + 10 * (i : Int)⟩)
    (TEAM_NAME_TO_ABBREV.map Prod.fst) ((List.range 32).map (fun i => (i : Int)))

/-- 32 ascending defense rows whose best (lowest-yardage) row carries a team
display name absent from `TEAM_NAME_TO_ABBREV`. -/
def demoRowsBad : List DefRow :=
  ⟨"London Monarchs", 50⟩ :: demoRows32.drop 1

/-! ## Helper lemmas -/

/-- `seriesSum` computed from any accumulator is the accumulator plus the
sum of the present values. -/
theorem seriesSum_foldl (xs : List (Option Int)) : ∀ acc : Int,
    xs.foldl (fun acc x => match x with | some v => acc + v | none => acc) acc
      = acc + (xs.filterMap id).sum := by
  induction xs with
  | nil => intro acc; simp
  | cons x xs ih =>
    intro acc
    cases x with
    | none => simp [List.foldl, ih]
    | some v => simp [List.foldl, ih]; ring

/-- `seriesSum` sums exactly the present values. -/
theorem seriesSum_eq_sum_present (xs : List (Option Int)) :
    seriesSum xs = (xs.filterMap id).sum := by
  simpa using seriesSum_foldl xs 0

/-- On a row none of whose cells matches `RB` as a whole word, the position
loop returns the short first token of the *last* qualifying cell, falling
back to the accumulator. -/
theorem positionLoop_eq_getLastD (tds : List String) : ∀ acc : String,
    (∀ t ∈ tds, containsRBWord t = false) →
    positionLoop acc tds = (tds.filterMap shortTok).getLastD acc := by
  induction tds with
  | nil => intro acc _; simp [positionLoop]
  | cons t rest ih =>
    intro acc h
    have ht : containsRBWord t = false := h t (by simp)
    have hrest : ∀ u ∈ rest, containsRBWord u = false :=
      fun u hu => h u (by simp [hu])
    by_cases he : t = ""
    · have hst : shortTok t = none := by simp [shortTok, he]
      rw [show positionLoop acc (t :: rest) = positionLoop acc rest from
            by simp [positionLoop, he],
          List.filterMap_cons_none hst]
      exact ih acc hrest
    · rcases hst : shortTok t with _ | tok
      · rw [show positionLoop acc (t :: rest) = positionLoop acc rest from
              by simp [positionLoop, he, ht, hst],
            List.filterMap_cons_none hst]
        exact ih acc hrest
      · rw [show positionLoop acc (t :: rest) = positionLoop tok rest from
              by simp [positionLoop, he, ht, hst],
            List.filterMap_cons_some hst, List.getLastD_cons]
        exact ih tok hrest

/-- Invariant of the roster loop: the emitted player ids are distinct and
none of them was already in `seen_ids`. -/
theorem rosterLoop_ids_nodup (team : String) (links : List Link) :
    ∀ seen : List String,
    ((rosterLoop team seen links).map (fun e => e.player_id)).Nodup ∧
      ∀ e ∈ rosterLoop team seen links, e.player_id ∉ seen := by
  induction links with
  | nil => intro seen; simp [rosterLoop]
  | cons l rest ih =>
    intro seen
    have hunfold : rosterLoop team seen (l :: rest) =
        if l.name = "" then rosterLoop team seen rest
        else if l.playerId ∈ seen then rosterLoop team seen rest
        else if rbQualifies l then
          ⟨team, l.name, l.playerId⟩ :: rosterLoop team (l.playerId :: seen) rest
        else rosterLoop team seen rest := rfl
    by_cases hname : l.name = ""
    · rw [hunfold, if_pos hname]; exact ih seen
    · by_cases hseen : l.playerId ∈ seen
      · rw [hunfold, if_neg hname, if_pos hseen]; exact ih seen
      · by_cases hq : rbQualifies l
        · rw [hunfold, if_neg hname, if_neg hseen, if_pos hq]
          obtain ⟨ih1, ih2⟩ := ih (l.playerId :: seen)
          constructor
          · rw [List.map_cons]
            refine List.nodup_cons.mpr ⟨?_, ih1⟩
            intro hmem
            rcases List.mem_map.mp hmem with ⟨e, he, hid⟩
            exact (ih2 e he) (hid ▸ List.mem_cons_self _ _)
          · intro e he
            rcases List.mem_cons.mp he with he | he
            · subst he; exact hseen
            · exact fun hc => (ih2 e he) (List.mem_cons_of_mem _ hc)
        · rw [hunfold, if_neg hname, if_neg hseen, if_neg hq]; exact ih seen

/-- An ascending list whose yardage values are pairwise distinct is strictly
ascending. -/
theorem pairwise_lt_of_sorted_nodup (l : List DefRow)
    (hs : sortedByYards l)
    (hnd : (l.map (fun r => r.rushing_yards_allowed)).Nodup) :
    l.Pairwise (fun a b => a.rushing_yards_allowed < b.rushing_yards_allowed) := by
  have hne : l.Pairwise
      (fun a b => a.rushing_yards_allowed ≠ b.rushing_yards_allowed) := by
    simpa [List.Nodup, List.pairwise_map] using hnd
  exact (hs.and hne).imp (fun h => lt_of_le_of_ne h.1 h.2)

/-! ## Claim theorems -/

/-- C6: the 8-cell row `["10/01","@KC","W 20-17","15","80","5.3","1","22"]`
yields a GameRecord with rushing_attempts = 15, rushing_yards = 80,
rushing_td = 1 and rushing long = 22, while a 5-cell row yields no
GameRecord at all. -/
theorem C6_row_parsing_example :
    parseGameRow ["10/01", "@KC", "W 20-17", "15", "80", "5.3", "1", "22"] =
      some ⟨"10/01", "@KC", "W 20-17",
        ⟨some 15, some 80, some "5.3", some 1, some 22⟩, ⟨none, none, none⟩⟩ ∧
    parseGameRow ["10/01", "@KC", "W 20-17", "15", "80"] = none :=
  ⟨rfl, rfl⟩

/-- C7 counterexample: the claim says only a *leading* "@"/"vs" marker is
stripped, so on `"SEA@"` the residual would be the 4-character `"sea@"` and
the result Unresolved; the code removes the marker characters anywhere and
returns `"sea"`. -/
theorem C7_counterexample_trailing_marker :
    normalize_opponent_abbrev (Cell.str "SEA@") = some "sea" ∧
    canonicalize_opponent_specWords (Cell.str "SEA@") = none :=
  ⟨rfl, rfl⟩

/-- C7 (amended): opponent normalization removes every occurrence of "@" and
of the substring "vs" (before lower-casing) anywhere in the string, then
lower-cases and trims, returning Unresolved when the residual exceeds 3
characters; in particular `"@SEA"` and `"vsSEA"` both yield `"sea"` and
`"Seattle Seahawks Defense"` is Unresolved.  Every resolved output has at
most 3 characters. -/
theorem C7_opponent_normalization :
    (normalize_opponent_abbrev (Cell.str "@SEA") = some "sea" ∧
     normalize_opponent_abbrev (Cell.str "vsSEA") = some "sea" ∧
     normalize_opponent_abbrev (Cell.str "Seattle Seahawks Defense") = none) ∧
    ∀ (c : Cell) (res : String),
      normalize_opponent_abbrev c = some res → res.length ≤ 3 := by
  refine ⟨⟨rfl, rfl, rfl⟩, ?_⟩
  intro c res h
  cases c with
  | nonStr => simp [normalize_opponent_abbrev] at h
  | str s =>
    by_cases hs : s = ""
    · simp [normalize_opponent_abbrev, hs] at h
    · simp only [normalize_opponent_abbrev, hs, if_false, ite_false] at h
      split at h
      · exact absurd h (by simp)
      · rename_i hlen
        have : res = String.mk
            (trimChars (lowerChars (removeVs (s.data.filter (fun c => c ≠ '@'))))) := by
          exact (Option.some_injective _ h).symm
        subst this
        simpa [String.length] using Nat.le_of_not_lt hlen

/-- C7 witness: the amended theorem instantiated at `"@SEA"`. -/
theorem C7_opponent_normalization_witness :
    normalize_opponent_abbrev (Cell.str "@SEA") = some "sea" ∧
    ("sea" : String).length ≤ 3 :=
  ⟨C7_opponent_normalization.1.1,
   C7_opponent_normalization.2 (Cell.str "@SEA") "sea"
     C7_opponent_normalization.1.1⟩

/-- C10: opponent normalization is total: every non-string cell (NaN, None,
a number) and the empty string map to the Unresolved outcome `none`, and a
game whose opponent is Unresolved is excluded from the tier aggregation. -/
theorem C10_normalization_total :
    (normalize_opponent_abbrev Cell.nonStr = none ∧
     normalize_opponent_abbrev (Cell.str "") = none) ∧
    ∀ (g : PlayerGame) (tier : List String),
      normalize_opponent_abbrev g.opponent = none → games_vs [g] tier = [] := by
  refine ⟨⟨rfl, rfl⟩, ?_⟩
  intro g tier h
  simp [games_vs, h]

/-- C10 witness: a game with a NaN opponent cell is dropped from any tier. -/
theorem C10_normalization_total_witness :
    games_vs [⟨Cell.nonStr, some 50, some 10⟩] ["sea"] = [] :=
  C10_normalization_total.2 ⟨Cell.nonStr, some 50, some 10⟩ ["sea"] rfl

/-- C8: summing a stat column skips absent values: the sum is over present
values only, and two qualifying games with yards `some 50` and `none` sum to
50. -/
theorem C8_sum_skips_absent :
    (∀ xs : List (Option Int), seriesSum xs = (xs.filterMap id).sum) ∧
    ∀ (g1 g2 : PlayerGame) (tier : List String) (a1 a2 : String),
      normalize_opponent_abbrev g1.opponent = some a1 →
      tier.contains a1 = true →
      normalize_opponent_abbrev g2.opponent = some a2 →
      tier.contains a2 = true →
      g1.rushing_yards = some 50 → g2.rushing_yards = none →
      rushing_yards_vs [g1, g2] tier = 50 := by
  refine ⟨seriesSum_eq_sum_present, ?_⟩
  intro g1 g2 tier a1 a2 h1 hm1 h2 hm2 hy1 hy2
  have hmem1 : a1 ∈ tier := by simpa using hm1
  have hmem2 : a2 ∈ tier := by simpa using hm2
  have hg : games_vs [g1, g2] tier = [g1, g2] := by
    simp [games_vs, h1, h2, hm1, hm2, hmem1, hmem2]
  rw [rushing_yards_vs, hg]
  simp [seriesSum, hy1, hy2]

/-- C8 witness: the two-game sum instantiated at concrete games against the
tier `["sea"]`. -/
theorem C8_sum_skips_absent_witness :
    rushing_yards_vs
      [⟨Cell.str "@SEA", some 50, some 10⟩, ⟨Cell.str "vsSEA", none, some 8⟩]
      ["sea"] = 50 :=
  C8_sum_skips_absent.2
    ⟨Cell.str "@SEA", some 50, some 10⟩ ⟨Cell.str "vsSEA", none, some 8⟩
    ["sea"] "sea" "sea" rfl rfl rfl rfl rfl rfl

/-- C4 counterexample: in the row whose CAR cell is the non-numeric `"abc"`,
the YDS cell `"50"` coerces fine on its own, yet the emitted record has
`rushing_yards` absent — the `ValueError` on cell 3 aborts every later
assignment of the same rushing `try` block, refuting per-field abstention. -/
theorem C4_counterexample_block_abort :
    parseGameRow ["10/01", "@KC", "W 20-17", "abc", "50", "5.3", "1", "22"] =
      some ⟨"10/01", "@KC", "W 20-17",
        ⟨none, none, none, none, none⟩, ⟨none, none, none⟩⟩ ∧
    pyInt? "50" = some 50 :=
  ⟨rfl, rfl⟩

/-- C4 (amended): per-field abstention holds only for *empty* cells — an
empty cell yields an absent value for that field alone and the remaining
fields are parsed from their own cells exactly as if the empty cell had held
a numeric value; a non-empty cell that fails numeric coercion instead leaves
its own field and every later field of the same rushing block absent, with
the fields already assigned keeping their values; in both cases the row is
still emitted as a GameRecord. -/
theorem C4_per_field_abstain :
    (∀ cells : List String, 8 ≤ cells.length →
      (parseGameRow cells).isSome = true) ∧
    (∀ c3 c5 c6 c7 : String,
      parseRushingBlock c3 "" c5 c6 c7 =
        { parseRushingBlock c3 "0" c5 c6 c7 with yards := none }) ∧
    (∀ c3 c4 c5 c6 c7 : String, c4 ≠ "" → pyInt? c4 = none →
      parseRushingBlock c3 c4 c5 c6 c7 =
        ⟨(parseRushingBlock c3 "0" c5 c6 c7).attempts, none, none, none, none⟩) := by
  refine ⟨?_, ?_, ?_⟩
  · intro cells hlen
    simp [parseGameRow, Nat.not_lt.mpr hlen]
  · intro c3 c5 c6 c7
    have h0 : cellInt "0" = Except.ok (some 0) := rfl
    have he : cellInt "" = Except.ok none := rfl
    unfold parseRushingBlock
    rw [h0, he]
    cases cellInt c3 with
    | error e => rfl
    | ok a =>
      cases cellFloat c5 with
      | error e => rfl
      | ok v =>
        cases cellInt c6 with
        | error e => rfl
        | ok t => rfl
  · intro c3 c4 c5 c6 c7 hne hfail
    have h4 : cellInt c4 = Except.error () := by simp [cellInt, hne, hfail]
    have h0 : cellInt "0" = Except.ok (some 0) := rfl
    unfold parseRushingBlock
    rw [h4, h0]
    cases cellInt c3 with
    | error e => rfl
    | ok a =>
      cases cellFloat c5 with
      | error e => rfl
      | ok v =>
        cases cellInt c6 with
        | error e => rfl
        | ok t => rfl

/-- C4 witness: the amended behavior at the concrete blocks
`("15", "abc", "5.3", "1", "22")` and `("15", "", "5.3", "1", "22")`. -/
theorem C4_per_field_abstain_witness :
    parseRushingBlock "15" "" "5.3" "1" "22" =
      { parseRushingBlock "15" "0" "5.3" "1" "22" with yards := none } ∧
    parseRushingBlock "15" "abc" "5.3" "1" "22" =
      ⟨(parseRushingBlock "15" "0" "5.3" "1" "22").attempts,
        none, none, none, none⟩ :=
  ⟨C4_per_field_abstain.2.1 "15" "5.3" "1" "22",
   C4_per_field_abstain.2.2 "15" "abc" "5.3" "1" "22" (by decide) rfl⟩

/-- C5 counterexample: in a row with cells `["fb", "hb"]`, neither of which
matches `RB` as a whole word, the claim picks the earliest qualifying cell's
token `"fb"`, but the code's loop overwrites the fallback and returns
`"hb"`. -/
theorem C5_counterexample_last_wins :
    containsRBWord "fb" = false ∧ containsRBWord "hb" = false ∧
    positionFromRow ["fb", "hb"] = "hb" ∧ ("hb" : String) ≠ "fb" :=
  ⟨rfl, rfl, rfl, by decide⟩

/-- C5 (amended): when no cell of the row matches the RB token as a whole
word, the fallback position text is the short (≤ 3 characters) first token
of the *latest* qualifying cell — each qualifying cell overwrites the
fallback — defaulting to the empty string when no cell qualifies. -/
theorem C5_fallback_from_last_cell (tds : List String)
    (h : ∀ t ∈ tds, containsRBWord t = false) :
    positionFromRow tds = (tds.filterMap shortTok).getLastD "" :=
  positionLoop_eq_getLastD tds "" h

/-- C5 witness: the amended fallback at the concrete row `["fb", "hb"]`. -/
theorem C5_fallback_from_last_cell_witness :
    positionFromRow ["fb", "hb"] = ((["fb", "hb"].filterMap shortTok).getLastD "") :=
  C5_fallback_from_last_cell ["fb", "hb"] (by decide)

/-- C9: roster extraction deduplicates by player identifier: the emitted
player ids are always pairwise distinct, and two links carrying the same id
whose resolved positions both contain "RB" produce exactly the one entry of
the first link. -/
theorem C9_dedup_by_player_id :
    (∀ (team : String) (links : List Link),
      ((fetch_team_roster team links).map (fun e => e.player_id)).Nodup) ∧
    ∀ (team : String) (l₁ l₂ : Link),
      l₁.playerId = l₂.playerId →
      l₁.name ≠ "" → l₂.name ≠ "" →
      rbQualifies l₁ = true → rbQualifies l₂ = true →
      fetch_team_roster team [l₁, l₂] = [⟨team, l₁.name, l₁.playerId⟩] := by
  constructor
  · intro team links
    exact (rosterLoop_ids_nodup team links []).1
  · intro team l₁ l₂ hid hn1 hn2 hq1 hq2
    show rosterLoop team [] [l₁, l₂] = _
    have e1 : rosterLoop team [] [l₁, l₂] =
        if l₁.name = "" then rosterLoop team [] [l₂]
        else if l₁.playerId ∈ ([] : List String) then rosterLoop team [] [l₂]
        else if rbQualifies l₁ then
          ⟨team, l₁.name, l₁.playerId⟩ :: rosterLoop team [l₁.playerId] [l₂]
        else rosterLoop team [] [l₂] := rfl
    rw [e1, if_neg hn1, if_neg (List.not_mem_nil _), if_pos hq1]
    have e2 : rosterLoop team [l₁.playerId] [l₂] =
        if l₂.name = "" then rosterLoop team [l₁.playerId] []
        else if l₂.playerId ∈ [l₁.playerId] then rosterLoop team [l₁.playerId] []
        else if rbQualifies l₂ then
          ⟨team, l₂.name, l₂.playerId⟩ :: rosterLoop team [l₂.playerId, l₁.playerId] []
        else rosterLoop team [l₁.playerId] [] := rfl
    rw [e2, if_neg hn2, if_pos (by simp [hid])]
    rfl

/-- C9 witness: the two-link deduplication at concrete links sharing id
`"1"`, both resolving to position `"rb"`. -/
theorem C9_dedup_by_player_id_witness :
    fetch_team_roster "kc" [⟨"1", "A", ["rb"]⟩, ⟨"1", "B", ["rb"]⟩] =
      [⟨"kc", "A", "1"⟩] :=
  C9_dedup_by_player_id.2 "kc" ⟨"1", "A", ["rb"]⟩ ⟨"1", "B", ["rb"]⟩
    rfl (by decide) (by decide) rfl rfl

/-- C2 counterexample: on 32 ascending rows whose best team's display name
is unmapped, the tier ranker returns normally with a full-length top16 tier
that silently contains the unresolved placeholder (`none`, pandas NaN) — no
defect is surfaced to the caller. -/
theorem C2_counterexample_silent_nan :
    sort_values demoRowsBad demoRowsBad ∧
    (top16_defenses demoRowsBad).length = 16 ∧
    none ∈ top16_defenses demoRowsBad :=
  ⟨⟨List.Perm.refl _, by decide⟩, rfl, by decide⟩

/-- C2 (amended): a team display name inside the top-16 slice that fails to
map to a canonical abbreviation is *not* surfaced as a defect: the dict
mapping yields the unresolved placeholder (NaN, here `none`), which is
silently included in the tier list, and the tier keeps one member per sliced
row (it is not shrunk). -/
theorem C2_unresolved_placeholder (sorted : List DefRow) (r : DefRow)
    (hr : r ∈ sorted.take 16) (hu : teamAbbrev r.team = none) :
    none ∈ top16_defenses sorted ∧
    (top16_defenses sorted).length = (sorted.take 16).length := by
  constructor
  · exact List.mem_map.mpr ⟨r, hr, hu⟩
  · simp [top16_defenses]

/-- C2 witness: the amended theorem at the 32-row input whose best team is
the unmapped "London Monarchs". -/
theorem C2_unresolved_placeholder_witness :
    none ∈ top16_defenses demoRowsBad ∧
    (top16_defenses demoRowsBad).length = (demoRowsBad.take 16).length :=
  C2_unresolved_placeholder demoRowsBad ⟨"London Monarchs", 50⟩ (by decide) rfl

/-- C3 counterexample: the sort contract of the ranking step (pandas
`sort_values`, default quicksort: some ascending rearrangement) admits, for
the two equal-valued rows Seattle-then-Denver, the swapped output
Denver-then-Seattle, which does not keep the original relative order of the
tied rows — so stability does not hold for every output of the code. -/
theorem C3_counterexample_unstable :
    sort_values [⟨"Seattle Seahawks", 100⟩, ⟨"Denver Broncos", 100⟩]
        [⟨"Denver Broncos", 100⟩, ⟨"Seattle Seahawks", 100⟩] ∧
    ¬ keepsTieOrder [⟨"Seattle Seahawks", 100⟩, ⟨"Denver Broncos", 100⟩]
        [⟨"Denver Broncos", 100⟩, ⟨"Seattle Seahawks", 100⟩] := by
  constructor
  · exact ⟨by decide, by decide⟩
  · intro h
    have h2 := h ⟨"Seattle Seahawks", 100⟩ ⟨"Denver Broncos", 100⟩
      (by decide) rfl (by decide)
    exact absurd h2 (by decide)

/-- C3 (amended): the ranking sort orders the rows by ascending
`rushing_yards_allowed` as a permutation of the input, but the relative
order of rows with equal values is not guaranteed; when the values are
pairwise distinct the ascending rearrangement is unique. -/
theorem C3_sorted_permutation (inp out : List DefRow)
    (h : sort_values inp out) :
    sortedByYards out ∧ out.Perm inp ∧
    ((inp.map (fun r => r.rushing_yards_allowed)).Nodup →
      ∀ out₂ : List DefRow, sort_values inp out₂ → out₂ = out) := by
  obtain ⟨hperm, hsorted⟩ := h
  refine ⟨hsorted, hperm, ?_⟩
  rintro hnd out₂ ⟨hperm₂, hsorted₂⟩
  have hnd_out : (out.map (fun r => r.rushing_yards_allowed)).Nodup :=
    ((hperm.map _).nodup_iff).mpr hnd
  have hnd_out₂ : (out₂.map (fun r => r.rushing_yards_allowed)).Nodup :=
    ((hperm₂.map _).nodup_iff).mpr hnd
  have hs1 := pairwise_lt_of_sorted_nodup out hsorted hnd_out
  have hs2 := pairwise_lt_of_sorted_nodup out₂ hsorted₂ hnd_out₂
  have hp : out₂.Perm out := hperm₂.trans hperm.symm
  haveI : IsAntisymm DefRow
      (fun a b => a.rushing_yards_allowed < b.rushing_yards_allowed) :=
    ⟨fun a b h1 h2 => absurd h2 (not_lt.mpr (le_of_lt h1))⟩
  exact List.eq_of_perm_of_sorted hp hs2 hs1

/-- C3 witness: the amended theorem at the 32 distinct-valued rows, already
ascending. -/
theorem C3_sorted_permutation_witness :
    sortedByYards demoRows32 ∧ demoRows32.Perm demoRows32 ∧
    ((demoRows32.map (fun r => r.rushing_yards_allowed)).Nodup →
      ∀ out₂ : List DefRow, sort_values demoRows32 out₂ → out₂ = demoRows32) :=
  C3_sorted_permutation demoRows32 demoRows32 ⟨List.Perm.refl _, by decide⟩

/-- C1: on 32 rows with pairwise-distinct `rushing_yards_allowed` (and the
32 distinct teams of the claim, expressed as distinct mapped abbreviations),
any output of the ranker splits the input into the 16 strictly-lowest-valued
rows (whose abbreviations are top16) and the 16 strictly-highest-valued rows
(whose abbreviations are bottom16); the two tier lists are disjoint and
together are a permutation of all 32 teams. -/
theorem C1_tier_partition (inp out : List DefRow)
    (hsort : sort_values inp out) (hlen : inp.length = 32)
    (hyards : (inp.map (fun r => r.rushing_yards_allowed)).Nodup)
    (habbr : (inp.map (fun r => teamAbbrev r.team)).Nodup) :
    ∃ lo hi : List DefRow,
      inp.Perm (lo ++ hi) ∧ lo.length = 16 ∧ hi.length = 16 ∧
      (∀ x ∈ lo, ∀ y ∈ hi,
        x.rushing_yards_allowed < y.rushing_yards_allowed) ∧
      top16_defenses out = lo.map (fun r => teamAbbrev r.team) ∧
      bottom16_defenses out = hi.map (fun r => teamAbbrev r.team) ∧
      List.Disjoint (top16_defenses out) (bottom16_defenses out) ∧
      (top16_defenses out ++ bottom16_defenses out).Perm
        (inp.map (fun r => teamAbbrev r.team)) := by
  obtain ⟨hperm, hsorted⟩ := hsort
  have hol : out.length = 32 := by rw [hperm.length_eq, hlen]
  have htd : out.take 16 ++ out.drop 16 = out := List.take_append_drop 16 out
  have htop : top16_defenses out = (out.take 16).map (fun r => teamAbbrev r.team) := rfl
  have hbot : bottom16_defenses out = (out.drop 16).map (fun r => teamAbbrev r.team) := by
    unfold bottom16_defenses
    rw [hol]
  have hnd_ab : (out.map (fun r => teamAbbrev r.team)).Nodup :=
    ((hperm.map _).nodup_iff).mpr habbr
  have happ : ((out.take 16).map (fun r => teamAbbrev r.team) ++
      (out.drop 16).map (fun r => teamAbbrev r.team)).Nodup := by
    rw [← List.map_append, htd]
    exact hnd_ab
  refine ⟨out.take 16, out.drop 16, ?_, ?_, ?_, ?_, htop, hbot, ?_, ?_⟩
  · rw [htd]; exact hperm.symm
  · simp [List.length_take, hol]
  · simp [List.length_drop, hol]
  · have hnd_out : (out.map (fun r => r.rushing_yards_allowed)).Nodup :=
      ((hperm.map _).nodup_iff).mpr hyards
    have hstrict := pairwise_lt_of_sorted_nodup out hsorted hnd_out
    have hsplit : (out.take 16 ++ out.drop 16).Pairwise
        (fun a b => a.rushing_yards_allowed < b.rushing_yards_allowed) := by
      rw [htd]; exact hstrict
    exact (List.pairwise_append.mp hsplit).2.2
  · rw [htop, hbot]
    exact (List.nodup_append.mp happ).2.2
  · rw [htop, hbot, ← List.map_append, htd]
    exact hperm.map _

/-- C1 witness: the partition at the 32 real teams with ascending values
80, 90, ..., 390. -/
theorem C1_tier_partition_witness :
    ∃ lo hi : List DefRow,
      demoRows32.Perm (lo ++ hi) ∧ lo.length = 16 ∧ hi.length = 16 ∧
      (∀ x ∈ lo, ∀ y ∈ hi,
        x.rushing_yards_allowed < y.rushing_yards_allowed) ∧
      top16_defenses demoRows32 = lo.map (fun r => teamAbbrev r.team) ∧
      bottom16_defenses demoRows32 = hi.map (fun r => teamAbbrev r.team) ∧
      List.Disjoint (top16_defenses demoRows32) (bottom16_defenses demoRows32) ∧
      (top16_defenses demoRows32 ++ bottom16_defenses demoRows32).Perm
        (demoRows32.map (fun r => teamAbbrev r.team)) :=
  C1_tier_partition demoRows32 demoRows32
    ⟨List.Perm.refl _, by decide⟩ (by decide) (by decide) (by decide)

end RBProj
